import Mathlib

/-!
Verification of the yoga recommendation backend's scoring and filtering
engine (`recommend_asanas` and the `/recommend/` handler
`get_recommendations` in `recommendation_backend.py`).

The embedding model (`SentenceTransformer.encode`) and the cosine-similarity
routine (`util.cos_sim`) are external black-box capabilities: we model them
as an abstract `Embedder` whose operations may fail (returning `none`
models a raised exception at that call site).  Python floats are idealized
as exact rationals; `round(x, 3)` is modelled by round-half-to-even on the
rational value, and `str.lower` by character-wise lowering.  Everything
else — validation, the exclusion loop, the weighted scoring formula, the
positivity cutoff, the stable descending sort and the top-10 truncation —
is translated statement by statement from the source.
-/

/-- Embedding vectors: fixed-length numeric vectors, idealized over ℚ. -/
abbrev Vec := List ℚ

/-- The external embedding capability (`model.encode` with
`normalize_embeddings=True`, and `util.cos_sim ... .item()`).  A `none`
result models the call raising an exception. -/
structure Embedder where
  encode : String → Option Vec
  cosSim : Vec → Vec → Option ℚ

/-- One row of the pickled dataframe `df` (field names follow the column
names used by the source). -/
structure CatalogItem where
  AName : String
  Benefits : String
  Contraindications : String
  Benefits_emb : Vec
  Contraindications_emb : Vec
  TargetedPhysicalProblems_emb : Vec
  TargetedMentalProblems_emb : Vec
deriving DecidableEq

/-- The request body (`UserInput` pydantic model, as the dict passed to
`recommend_asanas`). -/
structure UserProfile where
  age : Int
  height : Int
  weight : Int
  goals : List String
  physical_issues : List String
  mental_issues : List String
  level : String
deriving DecidableEq

/-- The per-request `user_emb` dict of the three query embeddings. -/
structure UserEmb where
  goals : Vec
  physical_issues : Vec
  mental_issues : Vec
deriving DecidableEq

/-- One entry of the `recommendations` list built by `recommend_asanas`. -/
structure Recommendation where
  name : String
  score : ℚ
  benefits : String
  contraindications : String
deriving DecidableEq

/-- Boolean test that `p` starts the character list `s` (used to model
Python's substring operator). -/
def startsWithB : List Char → List Char → Bool
  | [], _ => true
  | _ :: _, [] => false
  | a :: as, b :: bs => a == b && startsWithB as bs

/-- Boolean test that `needle` occurs as a contiguous substring of `hay`:
Python's `needle in hay` on strings. -/
def containsB (needle hay : List Char) : Bool :=
  startsWithB needle hay ||
    match hay with
    | [] => false
    | _ :: t => containsB needle t

/-- Python `needle in hay` for `String`s. -/
def strContains (hay needle : String) : Bool :=
  containsB needle.data hay.data

/-- Python's `str.lower()`: character-wise lowering. -/
def strLower (s : String) : String :=
  ⟨s.data.map Char.toLower⟩

/-- Python's `round(x, 3)`: round to the nearest multiple of 1/1000,
ties to even (banker's rounding), idealized over ℚ. -/
def round3 (x : ℚ) : ℚ :=
  let y := x * 1000
  let f := ⌊y⌋
  let r := y - (f : ℚ)
  let n : ℤ :=
    if r < 1/2 then f
    else if 1/2 < r then f + 1
    else if f % 2 = 0 then f else f + 1
  (n : ℚ) / 1000

/-- The contraindication-exclusion loop of `recommend_asanas` (lines
94–102 of the source): iterate the user's issue phrases in order; a
case-folded lexical substring match or a cosine similarity above 0.25
against the item's `Contraindications_emb` discards the item.
`some true` = discard, `some false` = survive, `none` = an embedding call
raised (the per-item exception path). -/
def checkDiscard (E : Embedder) (contra_text : String) (cEmb : Vec) :
    List String → Option Bool
  | [] => some false
  | issue :: rest =>
    if strContains contra_text (strLower issue) then some true
    else
      match E.encode (strLower issue) with
      | none => none
      | some v =>
        match E.cosSim v cEmb with
        | none => none
        | some s =>
          if 1/4 < s then some true
          else checkDiscard E contra_text cEmb rest

/-- The weighted scoring block of `recommend_asanas` (lines 106–113):
five cosine terms with weights 4,4,4,2,2, divided by the total weight 16.
`none` models a raised exception inside the per-item `try`. -/
def scoreItem (E : Embedder) (ue : UserEmb) (row : CatalogItem) : Option ℚ := do
  let s1 ← E.cosSim ue.goals row.Benefits_emb
  let s2 ← E.cosSim ue.physical_issues row.Benefits_emb
  let s3 ← E.cosSim ue.mental_issues row.Benefits_emb
  let s4 ← E.cosSim ue.physical_issues row.TargetedPhysicalProblems_emb
  let s5 ← E.cosSim ue.mental_issues row.TargetedMentalProblems_emb
  pure ((4 * s1 + 4 * s2 + 4 * s3 + 2 * s4 + 2 * s5) / 16)

/-- Outcome of the per-item `try` body: the item was skipped by a caught
exception, excluded by the contraindication filter, dropped by the
`score > 0` cutoff, or kept with its appended recommendation dict. -/
inductive ItemEval where
  | fault : ItemEval
  | excluded : ItemEval
  | nonpositive : ItemEval
  | kept : Recommendation → ItemEval
deriving DecidableEq

/-- Evaluation of one catalog row inside the loop of `recommend_asanas`
(lines 89–124). -/
def evalItem (E : Embedder) (ue : UserEmb) (p : UserProfile)
    (row : CatalogItem) : ItemEval :=
  match checkDiscard E (strLower row.Contraindications) row.Contraindications_emb
      (p.physical_issues ++ p.mental_issues) with
  | none => .fault
  | some true => .excluded
  | some false =>
    match scoreItem E ue row with
    | none => .fault
    | some score =>
      if 0 < score then
        .kept { name := row.AName, score := round3 score,
                benefits := row.Benefits,
                contraindications := row.Contraindications }
      else .nonpositive

/-- The recommendation an item evaluation contributes, if any. -/
def keptRec : ItemEval → Option Recommendation
  | .kept r => some r
  | _ => none

/-- The full `for _, row in df.iterrows()` loop: collect the kept
recommendations in catalog order. -/
def processRows (E : Embedder) (ue : UserEmb) (p : UserProfile) :
    List CatalogItem → List Recommendation
  | [] => []
  | row :: rest =>
    match evalItem E ue p row with
    | .kept r => r :: processRows E ue p rest
    | _ => processRows E ue p rest

/-- Stable insertion for the descending sort by `score`: `r` goes in front
of the first element whose score does not exceed it, so earlier input
elements with equal score stay in front (Python's `sorted` is stable). -/
def insertRec (r : Recommendation) : List Recommendation → List Recommendation
  | [] => [r]
  | x :: xs => if x.score ≤ r.score then r :: x :: xs else x :: insertRec r xs

/-- Python's `sorted(recommendations, key=lambda x: x["score"], reverse=True)`:
a stable sort by score, descending. -/
def sortRecs : List Recommendation → List Recommendation
  | [] => []
  | r :: rs => insertRec r (sortRecs rs)

/-- Request-level failures of `recommend_asanas`: the `ValueError` raised
by validation, or an exception escaping a query-embedding derivation. -/
inductive RecError where
  | invalidProfile : RecError
  | embedFailure : RecError
deriving DecidableEq

/-- The engine `recommend_asanas` (lines 65–128): validate, derive the three query
embeddings from the space-joined phrase lists, evaluate every row, sort
descending by score, truncate to 10. -/
def recommend_asanas (E : Embedder) (df : List CatalogItem)
    (p : UserProfile) : Except RecError (List Recommendation) :=
  if p.goals.isEmpty || p.physical_issues.isEmpty || p.mental_issues.isEmpty then
    .error .invalidProfile
  else
    match E.encode (String.intercalate " " p.goals) with
    | none => .error .embedFailure
    | some g =>
      match E.encode (String.intercalate " " p.physical_issues) with
      | none => .error .embedFailure
      | some ph =>
        match E.encode (String.intercalate " " p.mental_issues) with
        | none => .error .embedFailure
        | some me =>
          let ue : UserEmb := ⟨g, ph, me⟩
          .ok ((sortRecs (processRows E ue p df)).take 10)

/-- Body of a successful `/recommend/` JSON response. -/
structure RecommendResponse where
  recommended_asanas : List Recommendation
  total_recommendations : Option Nat
  message : Option String
  status : String
deriving DecidableEq

/-- The HTTP-level result of the `/recommend/` handler: a JSON body or an
`HTTPException` with a status code and detail string. -/
inductive ApiResult where
  | ok : RecommendResponse → ApiResult
  | httpError : Nat → String → ApiResult
deriving DecidableEq

/-- The handler `get_recommendations` (lines 134–160): call `recommend_asanas`,
return the empty-but-successful body on no recommendations, map
`ValueError` to HTTP 400 and any other exception to HTTP 500. -/
def get_recommendations (E : Embedder) (df : List CatalogItem)
    (u : UserProfile) : ApiResult :=
  match recommend_asanas E df u with
  | .error .invalidProfile =>
    .httpError 400 "Missing required fields: goals, physical_issues, or mental_issues"
  | .error .embedFailure =>
    .httpError 500 "Internal server error occurred while generating recommendations"
  | .ok recs =>
    if recs.isEmpty then
      .ok { recommended_asanas := [],
            total_recommendations := none,
            message := some "No suitable yoga poses found for your profile. Please try adjusting your goals or issues.",
            status := "success" }
    else
      .ok { recommended_asanas := recs,
            total_recommendations := some recs.length,
            message := none,
            status := "success" }

/-- Number of `model.encode` calls the exclusion loop performs for one
item: one per issue phrase that reaches the semantic test, stopping at
the first discard or raised call. -/
def checkDiscardCalls (E : Embedder) (contra_text : String) (cEmb : Vec) :
    List String → Nat
  | [] => 0
  | issue :: rest =>
    if strContains contra_text (strLower issue) then 0
    else
      match E.encode (strLower issue) with
      | none => 1
      | some v =>
        match E.cosSim v cEmb with
        | none => 1
        | some s =>
          if 1/4 < s then 1
          else 1 + checkDiscardCalls E contra_text cEmb rest

/-- Total number of `model.encode` calls issued by `recommend_asanas`:
zero when validation fails, otherwise the three query-embedding calls
(stopping early if one raises) plus the per-item semantic-test calls.
This instruments exactly the `model.encode` call sites of the source. -/
def recommendEncodeCalls (E : Embedder) (df : List CatalogItem)
    (p : UserProfile) : Nat :=
  if p.goals.isEmpty || p.physical_issues.isEmpty || p.mental_issues.isEmpty then 0
  else
    match E.encode (String.intercalate " " p.goals) with
    | none => 1
    | some _ =>
      match E.encode (String.intercalate " " p.physical_issues) with
      | none => 2
      | some _ =>
        match E.encode (String.intercalate " " p.mental_issues) with
        | none => 3
        | some _ =>
          3 + (df.map (fun row =>
            checkDiscardCalls E (strLower row.Contraindications)
              row.Contraindications_emb
              (p.physical_issues ++ p.mental_issues))).sum

/-- The lexical exclusion condition: the case-folded contraindications
text contains the case-folded phrase as a substring. -/
def lexMatch (contra_text : String) (phrase : String) : Prop :=
  strContains contra_text (strLower phrase) = true

instance (contra_text phrase : String) : Decidable (lexMatch contra_text phrase) := by
  unfold lexMatch
  infer_instance

/-- The semantic exclusion condition: the embedding of the case-folded
phrase has cosine similarity above 0.25 with the item's
contraindications embedding (both external calls succeeding). -/
def semMatch (E : Embedder) (cEmb : Vec) (phrase : String) : Prop :=
  ∃ v s, E.encode (strLower phrase) = some v ∧ E.cosSim v cEmb = some s ∧ 1/4 < s

/-! ### Concrete instances used as witnesses -/

/-- Dot product of two rational vectors (cosine similarity of unit
vectors). -/
def dot : Vec → Vec → ℚ
  | a :: as, b :: bs => a * b + dot as bs
  | _, _ => 0

/-- A concrete similarity routine: the dot product clamped into [-1, 1],
as cosine similarity of arbitrary nonzero vectors always is. -/
def clampSim (u v : Vec) : Option ℚ :=
  some (max (-1) (min 1 (dot u v)))

/-- Concrete embedder realizing the spec's one-item scenario: the goals
string maps to [1, 0], every other phrase to [0, 1]; similarity is the
clamped dot product. -/
def specEmbedder : Embedder :=
  { encode := fun s => if s = "relax" then some [1, 0] else some [0, 1],
    cosSim := clampSim }

/-- The one catalog item of the spec's concrete scenario: its benefits
embedding makes `cosine(goalsEmb, benefitsEmb) = 4/5` and every other
relevant cosine `0`. -/
def specItem : CatalogItem :=
  { AName := "Balasana", Benefits := "calms mind",
    Contraindications := "knee injury",
    Benefits_emb := [4/5, 0], Contraindications_emb := [0, 0],
    TargetedPhysicalProblems_emb := [0, 0],
    TargetedMentalProblems_emb := [0, 0] }

/-- The user profile of the spec's concrete scenario. -/
def specProfile : UserProfile :=
  { age := 30, height := 170, weight := 70, goals := ["relax"],
    physical_issues := ["back pain"], mental_issues := ["anxiety"],
    level := "beginner" }

/-- The expected recommendation of the spec's concrete scenario. -/
def specRec : Recommendation :=
  { name := "Balasana", score := 1/5, benefits := "calms mind",
    contraindications := "knee injury" }

/-- The per-request query embeddings derived by `specEmbedder` from
`specProfile`. -/
def specUe : UserEmb := ⟨[1, 0], [0, 1], [0, 1]⟩

/-- A catalog item whose raw score under `specEmbedder`/`specProfile` is
1/2500 = 0.0004: strictly positive, but rounding to 3 digits yields 0. -/
def tinyItem : CatalogItem :=
  { AName := "Halasana", Benefits := "stretch",
    Contraindications := "none listed",
    Benefits_emb := [1/625, 0], Contraindications_emb := [0, 0],
    TargetedPhysicalProblems_emb := [0, 0],
    TargetedMentalProblems_emb := [0, 0] }

/-- The recommendation produced for `tinyItem`: reported score 0. -/
def tinyRec : Recommendation :=
  { name := "Halasana", score := 0, benefits := "stretch",
    contraindications := "none listed" }

/-- A similarity routine that raises on a malformed (empty) stored
embedding, and otherwise behaves like `clampSim`. -/
def faultSim : Vec → Vec → Option ℚ
  | _, [] => none
  | u, v => clampSim u v

/-- Embedder whose similarity call fails on items with a malformed
contraindications embedding. -/
def faultEmbedder : Embedder :=
  { encode := fun s => if s = "relax" then some [1, 0] else some [0, 1],
    cosSim := faultSim }

/-- An item with a malformed (empty) contraindications embedding: its
semantic exclusion test raises, so the item is skipped. -/
def badItem : CatalogItem :=
  { AName := "Broken", Benefits := "b",
    Contraindications := "zzz",
    Benefits_emb := [1, 1], Contraindications_emb := [],
    TargetedPhysicalProblems_emb := [0, 0],
    TargetedMentalProblems_emb := [0, 0] }

/-- An item whose contraindications lexically contain the phrase "knee". -/
def lexItem : CatalogItem :=
  { AName := "Ustrasana", Benefits := "opens chest",
    Contraindications := "Knee injury",
    Benefits_emb := [1, 0], Contraindications_emb := [0, 0],
    TargetedPhysicalProblems_emb := [0, 0],
    TargetedMentalProblems_emb := [0, 0] }

/-- A profile whose issue phrase "knee" lexically matches `lexItem`'s
contraindications. -/
def lexProfile : UserProfile :=
  { age := 40, height := 180, weight := 80, goals := ["strength"],
    physical_issues := ["knee"], mental_issues := ["worry"],
    level := "intermediate" }

/-- A valid profile (all three lists non-empty) carrying the empty string
as a physical-issue phrase. -/
def nullProfile : UserProfile :=
  { age := 25, height := 165, weight := 60, goals := ["relax"],
    physical_issues := [""], mental_issues := ["anxiety"],
    level := "beginner" }

/-- A profile with an empty goals list (fails validation). -/
def emptyGoalsProfile : UserProfile :=
  { age := 30, height := 170, weight := 70, goals := [],
    physical_issues := ["back pain"], mental_issues := ["anxiety"],
    level := "beginner" }

/-! ### Helper lemmas -/

theorem mem_insertRec {a r : Recommendation} {l : List Recommendation} :
    a ∈ insertRec r l ↔ a = r ∨ a ∈ l := by
  induction l with
  | nil => simp [insertRec]
  | cons x xs ih =>
    rw [insertRec]
    split
    · simp
    · simp only [List.mem_cons, ih]
      tauto

theorem mem_sortRecs {a : Recommendation} {l : List Recommendation} :
    a ∈ sortRecs l ↔ a ∈ l := by
  induction l with
  | nil => simp [sortRecs]
  | cons r rs ih => simp [sortRecs, mem_insertRec, ih]

theorem pairwise_insertRec {r : Recommendation} {l : List Recommendation}
    (h : l.Pairwise (fun a b => b.score ≤ a.score)) :
    (insertRec r l).Pairwise (fun a b => b.score ≤ a.score) := by
  induction l with
  | nil => simp [insertRec]
  | cons x xs ih =>
    rcases List.pairwise_cons.mp h with ⟨hx, hxs⟩
    rw [insertRec]
    split
    · rename_i hle
      refine List.pairwise_cons.mpr ⟨?_, h⟩
      intro b hb
      rcases List.mem_cons.mp hb with rfl | hb
      · exact hle
      · exact le_trans (hx b hb) hle
    · rename_i hgt
      refine List.pairwise_cons.mpr ⟨?_, ih hxs⟩
      intro b hb
      rcases mem_insertRec.mp hb with rfl | hb
      · exact le_of_lt (lt_of_not_le hgt)
      · exact hx b hb

theorem pairwise_sortRecs (l : List Recommendation) :
    (sortRecs l).Pairwise (fun a b => b.score ≤ a.score) := by
  induction l with
  | nil => simp [sortRecs]
  | cons r rs ih => exact pairwise_insertRec ih

theorem filter_insertRec_eq {c : ℚ} {r : Recommendation}
    (l : List Recommendation) (hr : r.score = c) :
    (insertRec r l).filter (fun x => decide (x.score = c)) =
      r :: l.filter (fun x => decide (x.score = c)) := by
  induction l with
  | nil => simp [insertRec, hr]
  | cons x xs ih =>
    rw [insertRec]
    split
    · simp [List.filter_cons, hr]
    · rename_i hgt
      have hx : ¬ x.score = c := by
        intro hxc
        exact hgt (le_of_eq (hxc.trans hr.symm))
      simp [List.filter_cons, hx, ih]

theorem filter_insertRec_ne {c : ℚ} {r : Recommendation}
    (l : List Recommendation) (hr : ¬ r.score = c) :
    (insertRec r l).filter (fun x => decide (x.score = c)) =
      l.filter (fun x => decide (x.score = c)) := by
  induction l with
  | nil => simp [insertRec, hr]
  | cons x xs ih =>
    rw [insertRec]
    split
    · simp [List.filter_cons, hr]
    · simp [List.filter_cons, ih]

theorem filter_sortRecs (c : ℚ) (l : List Recommendation) :
    (sortRecs l).filter (fun x => decide (x.score = c)) =
      l.filter (fun x => decide (x.score = c)) := by
  induction l with
  | nil => rfl
  | cons r rs ih =>
    by_cases hr : r.score = c
    · rw [sortRecs, filter_insertRec_eq _ hr, ih, List.filter_cons]
      simp [hr]
    · rw [sortRecs, filter_insertRec_ne _ hr, ih, List.filter_cons]
      simp [hr]

theorem processRows_eq_filterMap (E : Embedder) (ue : UserEmb)
    (p : UserProfile) (df : List CatalogItem) :
    processRows E ue p df =
      df.filterMap (fun row => keptRec (evalItem E ue p row)) := by
  induction df with
  | nil => rfl
  | cons row rest ih =>
    rw [processRows]
    cases hev : evalItem E ue p row <;>
      simp [hev, keptRec, ih, List.filterMap_cons]

theorem mem_processRows {E : Embedder} {ue : UserEmb} {p : UserProfile}
    {df : List CatalogItem} {r : Recommendation}
    (h : r ∈ processRows E ue p df) :
    ∃ row, row ∈ df ∧ evalItem E ue p row = .kept r := by
  rw [processRows_eq_filterMap] at h
  rcases List.mem_filterMap.mp h with ⟨row, hrow, hk⟩
  refine ⟨row, hrow, ?_⟩
  cases hev : evalItem E ue p row <;> rw [hev] at hk <;> simp [keptRec] at hk
  rw [hk]

theorem processRows_nil_of_none {E : Embedder} {ue : UserEmb}
    {p : UserProfile} {df : List CatalogItem}
    (h : ∀ row ∈ df, keptRec (evalItem E ue p row) = none) :
    processRows E ue p df = [] := by
  rw [processRows_eq_filterMap]
  exact List.filterMap_eq_nil_iff.mpr h

theorem validation_false {p : UserProfile} (hg : p.goals ≠ [])
    (hp : p.physical_issues ≠ []) (hm : p.mental_issues ≠ []) :
    (p.goals.isEmpty || p.physical_issues.isEmpty || p.mental_issues.isEmpty) = false := by
  simp [List.isEmpty_iff, hg, hp, hm]

theorem recommend_asanas_ok {E : Embedder} {df : List CatalogItem}
    {p : UserProfile} {g ph me : Vec}
    (hg0 : p.goals ≠ []) (hp0 : p.physical_issues ≠ [])
    (hm0 : p.mental_issues ≠ [])
    (hg : E.encode (String.intercalate " " p.goals) = some g)
    (hph : E.encode (String.intercalate " " p.physical_issues) = some ph)
    (hme : E.encode (String.intercalate " " p.mental_issues) = some me) :
    recommend_asanas E df p =
      .ok ((sortRecs (processRows E ⟨g, ph, me⟩ p df)).take 10) := by
  unfold recommend_asanas
  rw [validation_false hg0 hp0 hm0]
  simp only [Bool.false_eq_true, if_false, hg, hph, hme]

theorem recommend_ok_shape {E : Embedder} {df : List CatalogItem}
    {p : UserProfile} {out : List Recommendation}
    (h : recommend_asanas E df p = .ok out) :
    ∃ ue : UserEmb, out = (sortRecs (processRows E ue p df)).take 10 := by
  unfold recommend_asanas at h
  by_cases hval :
      (p.goals.isEmpty || p.physical_issues.isEmpty || p.mental_issues.isEmpty) = true
  · rw [if_pos hval] at h
    exact absurd h (by simp)
  · rw [if_neg hval] at h
    cases hg : E.encode (String.intercalate " " p.goals) with
    | none => rw [hg] at h; exact absurd h (by simp)
    | some g =>
      rw [hg] at h
      cases hph : E.encode (String.intercalate " " p.physical_issues) with
      | none => rw [hph] at h; exact absurd h (by simp)
      | some ph =>
        rw [hph] at h
        cases hme : E.encode (String.intercalate " " p.mental_issues) with
        | none => rw [hme] at h; exact absurd h (by simp)
        | some me =>
          rw [hme] at h
          exact ⟨⟨g, ph, me⟩, (Except.ok.injEq _ _ |>.mp h).symm⟩

theorem recommend_skip {E : Embedder} {p : UserProfile} {row : CatalogItem}
    {g ph me : Vec}
    (hg : E.encode (String.intercalate " " p.goals) = some g)
    (hph : E.encode (String.intercalate " " p.physical_issues) = some ph)
    (hme : E.encode (String.intercalate " " p.mental_issues) = some me)
    (h : keptRec (evalItem E ⟨g, ph, me⟩ p row) = none)
    (df1 df2 : List CatalogItem) :
    recommend_asanas E (df1 ++ row :: df2) p =
      recommend_asanas E (df1 ++ df2) p := by
  by_cases hval :
      (p.goals.isEmpty || p.physical_issues.isEmpty || p.mental_issues.isEmpty) = true
  · unfold recommend_asanas
    rw [if_pos hval, if_pos hval]
  · unfold recommend_asanas
    rw [if_neg hval, if_neg hval, hg, hph, hme]
    simp only [processRows_eq_filterMap, List.filterMap_append,
      List.filterMap_cons, h]

theorem recommend_skip_all {E : Embedder} {p : UserProfile}
    {row : CatalogItem}
    (h : ∀ ue : UserEmb, keptRec (evalItem E ue p row) = none)
    (df1 df2 : List CatalogItem) :
    recommend_asanas E (df1 ++ row :: df2) p =
      recommend_asanas E (df1 ++ df2) p := by
  by_cases hval :
      (p.goals.isEmpty || p.physical_issues.isEmpty || p.mental_issues.isEmpty) = true
  · unfold recommend_asanas
    rw [if_pos hval, if_pos hval]
  · cases hg : E.encode (String.intercalate " " p.goals) with
    | none =>
      unfold recommend_asanas
      rw [if_neg hval, if_neg hval, hg]
    | some g =>
      cases hph : E.encode (String.intercalate " " p.physical_issues) with
      | none =>
        unfold recommend_asanas
        rw [if_neg hval, if_neg hval, hg, hph]
      | some ph =>
        cases hme : E.encode (String.intercalate " " p.mental_issues) with
        | none =>
          unfold recommend_asanas
          rw [if_neg hval, if_neg hval, hg, hph, hme]
        | some me =>
          exact recommend_skip hg hph hme (h ⟨g, ph, me⟩) df1 df2

theorem scoreItem_eq {E : Embedder} {ue : UserEmb} {row : CatalogItem}
    {s : ℚ} (h : scoreItem E ue row = some s) :
    ∃ c1 c2 c3 c4 c5 : ℚ,
      E.cosSim ue.goals row.Benefits_emb = some c1 ∧
      E.cosSim ue.physical_issues row.Benefits_emb = some c2 ∧
      E.cosSim ue.mental_issues row.Benefits_emb = some c3 ∧
      E.cosSim ue.physical_issues row.TargetedPhysicalProblems_emb = some c4 ∧
      E.cosSim ue.mental_issues row.TargetedMentalProblems_emb = some c5 ∧
      s = (4 * c1 + 4 * c2 + 4 * c3 + 2 * c4 + 2 * c5) / 16 := by
  cases h1 : E.cosSim ue.goals row.Benefits_emb with
  | none => simp [scoreItem, h1] at h
  | some c1 =>
    cases h2 : E.cosSim ue.physical_issues row.Benefits_emb with
    | none => simp [scoreItem, h1, h2] at h
    | some c2 =>
      cases h3 : E.cosSim ue.mental_issues row.Benefits_emb with
      | none => simp [scoreItem, h1, h2, h3] at h
      | some c3 =>
        cases h4 : E.cosSim ue.physical_issues row.TargetedPhysicalProblems_emb with
        | none => simp [scoreItem, h1, h2, h3, h4] at h
        | some c4 =>
          cases h5 : E.cosSim ue.mental_issues row.TargetedMentalProblems_emb with
          | none => simp [scoreItem, h1, h2, h3, h4, h5] at h
          | some c5 =>
            simp only [scoreItem, h1, h2, h3, h4, h5, Option.bind_eq_bind,
              Option.some_bind, pure, Option.some.injEq] at h
            exact ⟨c1, c2, c3, c4, c5, rfl, rfl, rfl, rfl, rfl, h.symm⟩

theorem evalItem_kept {E : Embedder} {ue : UserEmb} {p : UserProfile}
    {row : CatalogItem} {r : Recommendation}
    (h : evalItem E ue p row = .kept r) :
    ∃ s, scoreItem E ue row = some s ∧ 0 < s ∧
      r = { name := row.AName, score := round3 s, benefits := row.Benefits,
            contraindications := row.Contraindications } := by
  unfold evalItem at h
  cases hcd : checkDiscard E (strLower row.Contraindications)
      row.Contraindications_emb (p.physical_issues ++ p.mental_issues) with
  | none => rw [hcd] at h; simp at h
  | some b =>
    rw [hcd] at h
    cases b with
    | true => simp at h
    | false =>
      cases hs : scoreItem E ue row with
      | none => rw [hs] at h; simp at h
      | some s =>
        rw [hs] at h
        dsimp only at h
        by_cases hpos : 0 < s
        · rw [if_pos hpos] at h
          exact ⟨s, rfl, hpos, (ItemEval.kept.injEq _ _ |>.mp h).symm⟩
        · rw [if_neg hpos] at h
          simp at h

theorem round3_nonneg {x : ℚ} (hx : 0 ≤ x) : 0 ≤ round3 x := by
  unfold round3
  have h0 : (0:ℚ) ≤ x * 1000 := by positivity
  have hf : (0:ℤ) ≤ ⌊x * 1000⌋ := Int.floor_nonneg.mpr h0
  apply div_nonneg _ (by norm_num)
  have : (0:ℤ) ≤
      (if x * 1000 - (⌊x * 1000⌋ : ℚ) < 1/2 then ⌊x * 1000⌋
       else if 1/2 < x * 1000 - (⌊x * 1000⌋ : ℚ) then ⌊x * 1000⌋ + 1
       else if ⌊x * 1000⌋ % 2 = 0 then ⌊x * 1000⌋ else ⌊x * 1000⌋ + 1) := by
    split_ifs <;> omega
  exact_mod_cast this

theorem round3_le_one {x : ℚ} (hx : x ≤ 1) : round3 x ≤ 1 := by
  unfold round3
  have hy : x * 1000 ≤ 1000 := by linarith
  have hfle : ⌊x * 1000⌋ ≤ 1000 := by
    have h1 : ⌊x * 1000⌋ ≤ ⌊(1000 : ℚ)⌋ := Int.floor_mono hy
    simpa using h1
  have hflo : (⌊x * 1000⌋ : ℚ) ≤ x * 1000 := Int.floor_le _
  rw [div_le_one (by norm_num)]
  have : (if x * 1000 - (⌊x * 1000⌋ : ℚ) < 1/2 then ⌊x * 1000⌋
       else if 1/2 < x * 1000 - (⌊x * 1000⌋ : ℚ) then ⌊x * 1000⌋ + 1
       else if ⌊x * 1000⌋ % 2 = 0 then ⌊x * 1000⌋ else ⌊x * 1000⌋ + 1) ≤ 1000 := by
    split_ifs with h1 h2 h3
    · exact hfle
    · have hq : (⌊x * 1000⌋ : ℚ) < 1000 := by linarith
      have hz : ⌊x * 1000⌋ < 1000 := by exact_mod_cast hq
      omega
    · exact hfle
    · have hr : (1:ℚ)/2 ≤ x * 1000 - (⌊x * 1000⌋ : ℚ) := le_of_not_lt h1
      have hq : (⌊x * 1000⌋ : ℚ) < 1000 := by linarith
      have hz : ⌊x * 1000⌋ < 1000 := by exact_mod_cast hq
      omega
  calc ((if x * 1000 - (⌊x * 1000⌋ : ℚ) < 1/2 then ⌊x * 1000⌋
       else if 1/2 < x * 1000 - (⌊x * 1000⌋ : ℚ) then ⌊x * 1000⌋ + 1
       else if ⌊x * 1000⌋ % 2 = 0 then ⌊x * 1000⌋ else ⌊x * 1000⌋ + 1 : ℤ) : ℚ)
      ≤ ((1000 : ℤ) : ℚ) := by exact_mod_cast this
    _ = 1000 := by norm_num

theorem checkDiscard_true_iff (E : Embedder) (contra : String) (cEmb : Vec) :
    ∀ issues : List String, checkDiscard E contra cEmb issues ≠ none →
      (checkDiscard E contra cEmb issues = some true ↔
        ∃ phrase ∈ issues, lexMatch contra phrase ∨ semMatch E cEmb phrase) := by
  intro issues
  induction issues with
  | nil =>
    intro _
    simp [checkDiscard]
  | cons issue rest ih =>
    intro hne
    rw [checkDiscard] at hne ⊢
    by_cases hlex : strContains contra (strLower issue) = true
    · rw [if_pos hlex]
      exact iff_of_true rfl ⟨issue, List.mem_cons_self _ _, Or.inl hlex⟩
    · rw [if_neg hlex] at hne ⊢
      cases henc : E.encode (strLower issue) with
      | none =>
        rw [henc] at hne
        dsimp only at hne
        exact absurd rfl hne
      | some v =>
        rw [henc] at hne
        dsimp only at hne ⊢
        cases hcs : E.cosSim v cEmb with
        | none =>
          rw [hcs] at hne
          dsimp only at hne
          exact absurd rfl hne
        | some s =>
          rw [hcs] at hne
          dsimp only at hne ⊢
          by_cases hs : 1/4 < s
          · rw [if_pos hs]
            exact iff_of_true rfl
              ⟨issue, List.mem_cons_self _ _, Or.inr ⟨v, s, henc, hcs, hs⟩⟩
          · rw [if_neg hs] at hne ⊢
            rw [ih hne]
            constructor
            · rintro ⟨phrase, hmem, hp⟩
              exact ⟨phrase, List.mem_cons_of_mem _ hmem, hp⟩
            · rintro ⟨phrase, hmem, hp⟩
              rcases List.mem_cons.mp hmem with rfl | hmem
              · rcases hp with hl | ⟨v', s', henc', hcs', hs'⟩
                · exact absurd hl hlex
                · rw [henc] at henc'
                  rw [(Option.some.injEq _ _).mp henc'.symm] at hcs'
                  rw [hcs] at hcs'
                  rw [(Option.some.injEq _ _).mp hcs'.symm] at hs'
                  exact absurd hs' hs
              · exact ⟨phrase, hmem, hp⟩

theorem checkDiscard_ne_false_of_lex {E : Embedder} {contra : String}
    {cEmb : Vec} {issues : List String}
    (hex : ∃ phrase ∈ issues, lexMatch contra phrase) :
    checkDiscard E contra cEmb issues ≠ some false := by
  induction issues with
  | nil => simp at hex
  | cons issue rest ih =>
    obtain ⟨phrase, hmem, hlex⟩ := hex
    rw [checkDiscard]
    by_cases hl : strContains contra (strLower issue) = true
    · rw [if_pos hl]; simp
    · rw [if_neg hl]
      have hrest : phrase ∈ rest := by
        rcases List.mem_cons.mp hmem with rfl | hmem
        · exact absurd hlex hl
        · exact hmem
      cases henc : E.encode (strLower issue) with
      | none => simp
      | some v =>
        dsimp only
        cases hcs : E.cosSim v cEmb with
        | none => simp
        | some s =>
          dsimp only
          by_cases hs : 1/4 < s
          · rw [if_pos hs]; simp
          · rw [if_neg hs]
            exact ih ⟨phrase, hrest, hlex⟩

theorem keptRec_none_of_discard {E : Embedder} {ue : UserEmb}
    {p : UserProfile} {row : CatalogItem}
    (h : checkDiscard E (strLower row.Contraindications)
        row.Contraindications_emb
        (p.physical_issues ++ p.mental_issues) ≠ some false) :
    keptRec (evalItem E ue p row) = none := by
  unfold evalItem
  cases hcd : checkDiscard E (strLower row.Contraindications)
      row.Contraindications_emb (p.physical_issues ++ p.mental_issues) with
  | none => rfl
  | some b =>
    cases b with
    | true => rfl
    | false => exact absurd hcd h

theorem evalItem_excluded_iff {E : Embedder} {ue : UserEmb}
    {p : UserProfile} {row : CatalogItem}
    (h : evalItem E ue p row ≠ .fault) :
    evalItem E ue p row = .excluded ↔
      ∃ phrase ∈ p.physical_issues ++ p.mental_issues,
        lexMatch (strLower row.Contraindications) phrase ∨
        semMatch E row.Contraindications_emb phrase := by
  unfold evalItem at h ⊢
  cases hcd : checkDiscard E (strLower row.Contraindications)
      row.Contraindications_emb (p.physical_issues ++ p.mental_issues) with
  | none => rw [hcd] at h; exact absurd rfl h
  | some b =>
    have hne : checkDiscard E (strLower row.Contraindications)
        row.Contraindications_emb (p.physical_issues ++ p.mental_issues) ≠ none := by
      rw [hcd]; exact Option.some_ne_none b
    have hiff := checkDiscard_true_iff E (strLower row.Contraindications)
      row.Contraindications_emb (p.physical_issues ++ p.mental_issues) hne
    cases b with
    | true => exact iff_of_true rfl (hiff.mp hcd)
    | false =>
      have hnot : ¬ ∃ phrase ∈ p.physical_issues ++ p.mental_issues,
          lexMatch (strLower row.Contraindications) phrase ∨
          semMatch E row.Contraindications_emb phrase := by
        intro hex
        have := hiff.mpr hex
        rw [hcd] at this
        simp at this
      refine iff_of_false ?_ hnot
      dsimp only
      cases hs : scoreItem E ue row with
      | none => simp
      | some s =>
        dsimp only
        by_cases hpos : 0 < s
        · rw [if_pos hpos]; simp
        · rw [if_neg hpos]; simp

theorem containsB_nil (hay : List Char) : containsB [] hay = true := by
  rw [containsB.eq_def]
  simp [startsWithB]

theorem strContains_empty (s : String) : strContains s "" = true :=
  containsB_nil s.data

theorem lexMatch_empty (contra : String) : lexMatch contra "" := by
  unfold lexMatch
  have h : strLower "" = "" := by decide
  rw [h]
  exact strContains_empty contra

theorem clampSim_bounds (u v : Vec) (s : ℚ) (h : clampSim u v = some s) :
    -1 ≤ s ∧ s ≤ 1 := by
  rw [clampSim, Option.some.injEq] at h
  rw [← h]
  exact ⟨le_max_left _ _, max_le (by norm_num) (min_le_left _ _)⟩

theorem scoreItem_bounds {E : Embedder} {ue : UserEmb} {row : CatalogItem}
    {s : ℚ} (hb : ∀ u v q, E.cosSim u v = some q → -1 ≤ q ∧ q ≤ 1)
    (h : scoreItem E ue row = some s) : -1 ≤ s ∧ s ≤ 1 := by
  obtain ⟨c1, c2, c3, c4, c5, h1, h2, h3, h4, h5, heq⟩ := scoreItem_eq h
  obtain ⟨l1, u1⟩ := hb _ _ _ h1
  obtain ⟨l2, u2⟩ := hb _ _ _ h2
  obtain ⟨l3, u3⟩ := hb _ _ _ h3
  obtain ⟨l4, u4⟩ := hb _ _ _ h4
  obtain ⟨l5, u5⟩ := hb _ _ _ h5
  rw [heq]
  constructor <;> [linarith; linarith]

set_option maxHeartbeats 1000000 in
theorem spec_evalItem :
    evalItem specEmbedder specUe specProfile specItem = .kept specRec := by
  simp only [evalItem, checkDiscard, scoreItem, specEmbedder, specUe,
    specProfile, specItem, specRec, clampSim]
  norm_num +decide [strContains, containsB, startsWithB, strLower, dot, round3]

theorem spec_scenario :
    recommend_asanas specEmbedder [specItem] specProfile = .ok [specRec] := by
  have hg : specEmbedder.encode (String.intercalate " " specProfile.goals) =
      some [1, 0] := by rfl
  have hph : specEmbedder.encode
      (String.intercalate " " specProfile.physical_issues) = some [0, 1] := by rfl
  have hme : specEmbedder.encode
      (String.intercalate " " specProfile.mental_issues) = some [0, 1] := by rfl
  rw [recommend_asanas_ok (by decide) (by decide) (by decide) hg hph hme]
  have hpr : processRows specEmbedder specUe specProfile [specItem] = [specRec] := by
    rw [processRows, spec_evalItem, processRows]
  rw [show (⟨[1, 0], [0, 1], [0, 1]⟩ : UserEmb) = specUe from rfl, hpr]
  rfl

set_option maxHeartbeats 1000000 in
theorem tiny_evalItem :
    evalItem specEmbedder specUe specProfile tinyItem = .kept tinyRec := by
  simp only [evalItem, checkDiscard, scoreItem, specEmbedder, specUe,
    specProfile, tinyItem, tinyRec, clampSim]
  norm_num +decide [strContains, containsB, startsWithB, strLower, dot, round3]

theorem tiny_scenario :
    recommend_asanas specEmbedder [tinyItem] specProfile = .ok [tinyRec] := by
  have hg : specEmbedder.encode (String.intercalate " " specProfile.goals) =
      some [1, 0] := by rfl
  have hph : specEmbedder.encode
      (String.intercalate " " specProfile.physical_issues) = some [0, 1] := by rfl
  have hme : specEmbedder.encode
      (String.intercalate " " specProfile.mental_issues) = some [0, 1] := by rfl
  rw [recommend_asanas_ok (by decide) (by decide) (by decide) hg hph hme]
  have hpr : processRows specEmbedder specUe specProfile [tinyItem] = [tinyRec] := by
    rw [processRows, tiny_evalItem, processRows]
  rw [show (⟨[1, 0], [0, 1], [0, 1]⟩ : UserEmb) = specUe from rfl, hpr]
  rfl

/-! ### Claims -/

/-- C1: for every catalog item that survives the exclusion filter and is
kept, its reported score is the rounding of the weighted sum
(4·cos(goals,benefits) + 4·cos(physical,benefits) + 4·cos(mental,benefits)
+ 2·cos(physical,targetedPhysical) + 2·cos(mental,targetedMental)) / 16;
and in the spec's one-item scenario (cos(goalsEmb,benefitsEmb)=4/5, all
other relevant cosines 0, no contraindication match) the item is returned
at rank 1 with score (4·(4/5))/16 = 1/5 = 0.2. -/
theorem C1_weighted_score_formula :
    (∀ (E : Embedder) (ue : UserEmb) (p : UserProfile) (row : CatalogItem)
        (r : Recommendation), evalItem E ue p row = .kept r →
      ∃ c1 c2 c3 c4 c5 : ℚ,
        E.cosSim ue.goals row.Benefits_emb = some c1 ∧
        E.cosSim ue.physical_issues row.Benefits_emb = some c2 ∧
        E.cosSim ue.mental_issues row.Benefits_emb = some c3 ∧
        E.cosSim ue.physical_issues row.TargetedPhysicalProblems_emb = some c4 ∧
        E.cosSim ue.mental_issues row.TargetedMentalProblems_emb = some c5 ∧
        scoreItem E ue row =
          some ((4 * c1 + 4 * c2 + 4 * c3 + 2 * c4 + 2 * c5) / 16) ∧
        r.score = round3 ((4 * c1 + 4 * c2 + 4 * c3 + 2 * c4 + 2 * c5) / 16)) ∧
    recommend_asanas specEmbedder [specItem] specProfile = .ok [specRec] ∧
    specRec.score = (4 * (4/5) + 4 * 0 + 4 * 0 + 2 * 0 + 2 * 0) / 16 := by
  refine ⟨?_, spec_scenario, by norm_num [specRec]⟩
  intro E ue p row r h
  obtain ⟨s, hs, hpos, hr⟩ := evalItem_kept h
  obtain ⟨c1, c2, c3, c4, c5, h1, h2, h3, h4, h5, heq⟩ := scoreItem_eq hs
  refine ⟨c1, c2, c3, c4, c5, h1, h2, h3, h4, h5, ?_, ?_⟩
  · rw [hs, heq]
  · rw [hr, ← heq]

/-- C1 witness: the formula instantiated at the spec scenario's inputs. -/
theorem C1_witness :
    ∃ c1 c2 c3 c4 c5 : ℚ,
      specEmbedder.cosSim specUe.goals specItem.Benefits_emb = some c1 ∧
      specEmbedder.cosSim specUe.physical_issues specItem.Benefits_emb = some c2 ∧
      specEmbedder.cosSim specUe.mental_issues specItem.Benefits_emb = some c3 ∧
      specEmbedder.cosSim specUe.physical_issues
        specItem.TargetedPhysicalProblems_emb = some c4 ∧
      specEmbedder.cosSim specUe.mental_issues
        specItem.TargetedMentalProblems_emb = some c5 ∧
      scoreItem specEmbedder specUe specItem =
        some ((4 * c1 + 4 * c2 + 4 * c3 + 2 * c4 + 2 * c5) / 16) ∧
      specRec.score = round3 ((4 * c1 + 4 * c2 + 4 * c3 + 2 * c4 + 2 * c5) / 16) :=
  C1_weighted_score_formula.1 specEmbedder specUe specProfile specItem specRec
    spec_evalItem

/-- C2: an item is excluded by the contraindication filter (given no
raised embedding call for it) iff some issue phrase matches lexically
(case-folded substring) or semantically (cosine with the item's
contraindications embedding above 0.25); and a lexical match alone
guarantees the item is never kept and is absent from the output. -/
theorem C2_exclusion_characterization :
    ∀ (E : Embedder) (ue : UserEmb) (p : UserProfile) (row : CatalogItem),
      (evalItem E ue p row ≠ .fault →
        (evalItem E ue p row = .excluded ↔
          ∃ phrase ∈ p.physical_issues ++ p.mental_issues,
            lexMatch (strLower row.Contraindications) phrase ∨
            semMatch E row.Contraindications_emb phrase)) ∧
      ((∃ phrase ∈ p.physical_issues ++ p.mental_issues,
          lexMatch (strLower row.Contraindications) phrase) →
        (∀ r, evalItem E ue p row ≠ .kept r) ∧
        ∀ df1 df2, recommend_asanas E (df1 ++ row :: df2) p =
          recommend_asanas E (df1 ++ df2) p) := by
  intro E ue p row
  refine ⟨evalItem_excluded_iff, fun hex => ⟨?_, ?_⟩⟩
  · intro r hk
    have h := @keptRec_none_of_discard E ue p row
      (@checkDiscard_ne_false_of_lex E _ _ _ hex)
    rw [hk] at h
    simp [keptRec] at h
  · intro df1 df2
    exact recommend_skip_all
      (fun ue' => @keptRec_none_of_discard E ue' p row
        (@checkDiscard_ne_false_of_lex E _ _ _ hex))
      df1 df2

/-- C2 witness: `lexItem` ("Knee injury") is excluded for `lexProfile`
(issue "knee") and removing it from the catalog leaves the output
unchanged. -/
theorem C2_witness :
    evalItem specEmbedder specUe lexProfile lexItem = .excluded ∧
    recommend_asanas specEmbedder ([] ++ lexItem :: []) lexProfile =
      recommend_asanas specEmbedder ([] ++ []) lexProfile := by
  constructor
  · exact ((C2_exclusion_characterization specEmbedder specUe lexProfile
      lexItem).1 (by decide)).mpr ⟨"knee", by decide, Or.inl (by decide)⟩
  · exact ((C2_exclusion_characterization specEmbedder specUe lexProfile
      lexItem).2 ⟨"knee", by decide, by decide⟩).2 [] []

/-- C3: every successful result has at most 10 entries and is sorted by
score in non-increasing order. -/
theorem C3_top10_sorted :
    ∀ (E : Embedder) (df : List CatalogItem) (p : UserProfile)
      (out : List Recommendation),
      recommend_asanas E df p = .ok out →
      out.length ≤ 10 ∧ out.Pairwise (fun a b => b.score ≤ a.score) := by
  intro E df p out h
  obtain ⟨ue, rfl⟩ := recommend_ok_shape h
  constructor
  · rw [List.length_take]
    exact min_le_left _ _
  · exact List.Pairwise.sublist (List.take_sublist _ _) (pairwise_sortRecs _)

/-- C3 witness: the property at the spec scenario's output. -/
theorem C3_witness :
    ([specRec] : List Recommendation).length ≤ 10 ∧
    ([specRec] : List Recommendation).Pairwise (fun a b => b.score ≤ a.score) :=
  C3_top10_sorted specEmbedder [specItem] specProfile [specRec] spec_scenario

/-- C4 counterexample: with cosines in [-1, 1] (here 1/625 and 0), the
pre-rounding score 1/2500 is strictly positive, so the item is kept, but
the returned score field is round(0.0004, 3) = 0, which is not > 0. -/
theorem C4_counterexample :
    recommend_asanas specEmbedder [tinyItem] specProfile = .ok [tinyRec] ∧
    ¬ 0 < tinyRec.score :=
  ⟨tiny_scenario, by norm_num [tinyRec]⟩

/-- C4 (amended): for every returned recommendation (with cosine
similarities bounded in [-1, 1]) there is a strictly positive pre-rounding
score raw ≤ 1 with the score field equal to round3 raw; the score field
itself lies in [0, 1] (it can be exactly 0 after rounding). -/
theorem C4_score_rounding_range :
    ∀ (E : Embedder) (df : List CatalogItem) (p : UserProfile)
      (out : List Recommendation) (r : Recommendation),
      (∀ u v q, E.cosSim u v = some q → -1 ≤ q ∧ q ≤ 1) →
      recommend_asanas E df p = .ok out → r ∈ out →
      ∃ raw : ℚ, 0 < raw ∧ raw ≤ 1 ∧ r.score = round3 raw ∧
        0 ≤ r.score ∧ r.score ≤ 1 := by
  intro E df p out r hb h hmem
  obtain ⟨ue, rfl⟩ := recommend_ok_shape h
  have h1 : r ∈ sortRecs (processRows E ue p df) :=
    (List.take_sublist _ _).subset hmem
  have h2 : r ∈ processRows E ue p df := mem_sortRecs.mp h1
  obtain ⟨row, hrow, hk⟩ := mem_processRows h2
  obtain ⟨s, hs, hpos, hr⟩ := evalItem_kept hk
  obtain ⟨hl, hu⟩ := scoreItem_bounds hb hs
  have hscore : r.score = round3 s := by rw [hr]
  exact ⟨s, hpos, hu, hscore,
    hscore ▸ round3_nonneg (le_of_lt hpos), hscore ▸ round3_le_one hu⟩

/-- C4 witness: the amended property at the spec scenario. -/
theorem C4_witness :
    ∃ raw : ℚ, 0 < raw ∧ raw ≤ 1 ∧ specRec.score = round3 raw ∧
      0 ≤ specRec.score ∧ specRec.score ≤ 1 :=
  C4_score_rounding_range specEmbedder [specItem] specProfile [specRec] specRec
    (fun u v q h => clampSim_bounds u v q h) spec_scenario
    (List.mem_singleton.mpr rfl)

/-- C5: a profile with an empty goals, physicalIssues or mentalIssues
list makes `recommend_asanas` fail with the `ValueError` (InvalidProfile),
surfaced by the handler as HTTP 400, and zero `model.encode` calls are
issued. -/
theorem C5_invalid_profile_fails_fast :
    ∀ (E : Embedder) (df : List CatalogItem) (p : UserProfile),
      p.goals = [] ∨ p.physical_issues = [] ∨ p.mental_issues = [] →
      recommend_asanas E df p = .error .invalidProfile ∧
      get_recommendations E df p = .httpError 400
        "Missing required fields: goals, physical_issues, or mental_issues" ∧
      recommendEncodeCalls E df p = 0 := by
  intro E df p h
  have hcond : (p.goals.isEmpty || p.physical_issues.isEmpty ||
      p.mental_issues.isEmpty) = true := by
    rcases h with h | h | h <;> simp [h]
  have h1 : recommend_asanas E df p = .error .invalidProfile := by
    unfold recommend_asanas
    rw [if_pos hcond]
  refine ⟨h1, ?_, ?_⟩
  · unfold get_recommendations
    rw [h1]
  · unfold recommendEncodeCalls
    rw [if_pos hcond]

/-- C5 witness: a profile with `goals = []`. -/
theorem C5_witness :
    recommend_asanas specEmbedder [specItem] emptyGoalsProfile =
      .error .invalidProfile ∧
    get_recommendations specEmbedder [specItem] emptyGoalsProfile =
      .httpError 400
        "Missing required fields: goals, physical_issues, or mental_issues" ∧
    recommendEncodeCalls specEmbedder [specItem] emptyGoalsProfile = 0 :=
  C5_invalid_profile_fails_fast specEmbedder [specItem] emptyGoalsProfile
    (Or.inl rfl)

/-- C6: if evaluating one catalog item raises (its `evalItem` is a
fault), that item alone is skipped: the output over a catalog containing
it equals the output over the catalog with it removed. -/
theorem C6_faulty_item_skipped :
    ∀ (E : Embedder) (df1 df2 : List CatalogItem) (p : UserProfile)
      (row : CatalogItem) (g ph me : Vec),
      E.encode (String.intercalate " " p.goals) = some g →
      E.encode (String.intercalate " " p.physical_issues) = some ph →
      E.encode (String.intercalate " " p.mental_issues) = some me →
      evalItem E ⟨g, ph, me⟩ p row = .fault →
      recommend_asanas E (df1 ++ row :: df2) p =
        recommend_asanas E (df1 ++ df2) p := by
  intro E df1 df2 p row g ph me hg hph hme hfault
  exact recommend_skip hg hph hme (by rw [hfault]; rfl) df1 df2

/-- C6 witness: `badItem` (malformed contraindications embedding) faults
and is skipped; the catalog behaves as if it contained only `specItem`. -/
theorem C6_witness :
    recommend_asanas faultEmbedder [badItem, specItem] specProfile =
      recommend_asanas faultEmbedder [specItem] specProfile :=
  C6_faulty_item_skipped faultEmbedder [] [specItem] specProfile badItem
    [1, 0] [0, 1] [0, 1] rfl rfl rfl (by decide)

/-- C7: if under a valid profile no catalog item contributes a
recommendation (every item excluded, faulted, or non-positively scored),
`recommend_asanas` returns `.ok []` and the handler answers with success
status and an empty list, not an error. -/
theorem C7_zero_candidates_success :
    ∀ (E : Embedder) (df : List CatalogItem) (p : UserProfile) (g ph me : Vec),
      p.goals ≠ [] → p.physical_issues ≠ [] → p.mental_issues ≠ [] →
      E.encode (String.intercalate " " p.goals) = some g →
      E.encode (String.intercalate " " p.physical_issues) = some ph →
      E.encode (String.intercalate " " p.mental_issues) = some me →
      (∀ row ∈ df, keptRec (evalItem E ⟨g, ph, me⟩ p row) = none) →
      recommend_asanas E df p = .ok [] ∧
      get_recommendations E df p = .ok
        { recommended_asanas := [],
          total_recommendations := none,
          message := some "No suitable yoga poses found for your profile. Please try adjusting your goals or issues.",
          status := "success" } := by
  intro E df p g ph me hg0 hp0 hm0 hg hph hme hnone
  have h1 : recommend_asanas E df p = .ok [] := by
    rw [recommend_asanas_ok hg0 hp0 hm0 hg hph hme,
      processRows_nil_of_none hnone]
    rfl
  refine ⟨h1, ?_⟩
  unfold get_recommendations
  rw [h1]
  rfl

/-- C7 witness: `lexProfile`'s issue "knee" lexically matches the only
item's contraindications, so the output is empty but successful. -/
theorem C7_witness :
    recommend_asanas specEmbedder [lexItem] lexProfile = .ok [] ∧
    get_recommendations specEmbedder [lexItem] lexProfile = .ok
      { recommended_asanas := [],
        total_recommendations := none,
        message := some "No suitable yoga poses found for your profile. Please try adjusting your goals or issues.",
        status := "success" } :=
  C7_zero_candidates_success specEmbedder [lexItem] lexProfile
    [0, 1] [0, 1] [0, 1] (by decide) (by decide) (by decide)
    rfl rfl rfl (by decide)

/-- C8: the engine is deterministic — identical profiles against the same
embedder and catalog yield identical outputs (the embedder is a function,
so its determinism is built into the model). -/
theorem C8_idempotent :
    ∀ (E : Embedder) (df : List CatalogItem) (p1 p2 : UserProfile),
      p1 = p2 → recommend_asanas E df p1 = recommend_asanas E df p2 := by
  intro E df p1 p2 h
  rw [h]

/-- C8 witness: two identical calls at the spec scenario agree. -/
theorem C8_witness :
    recommend_asanas specEmbedder [specItem] specProfile =
      recommend_asanas specEmbedder [specItem] specProfile :=
  C8_idempotent specEmbedder [specItem] specProfile specProfile rfl

/-- C9: the sort is stable: for every score value, the returned entries
with that score appear in the same relative order as in the pre-sort
candidate list (itself in catalog order), and the truncated output's
entries of that score form a prefix of them. -/
theorem C9_stable_ties :
    ∀ (E : Embedder) (ue : UserEmb) (p : UserProfile)
      (df : List CatalogItem) (c : ℚ),
      (sortRecs (processRows E ue p df)).filter
          (fun r => decide (r.score = c)) =
        (processRows E ue p df).filter (fun r => decide (r.score = c)) ∧
      ((sortRecs (processRows E ue p df)).take 10).filter
          (fun r => decide (r.score = c)) <+:
        (processRows E ue p df).filter (fun r => decide (r.score = c)) := by
  intro E ue p df c
  refine ⟨filter_sortRecs c _, ?_⟩
  refine ⟨((sortRecs (processRows E ue p df)).drop 10).filter
    (fun r => decide (r.score = c)), ?_⟩
  rw [← List.filter_append, List.take_append_drop, filter_sortRecs]

/-- C10: when an issue phrase is the empty string (all three lists
non-empty so validation passes), the lexical test matches every text, no
item survives the filter, and the request succeeds with an empty list. -/
theorem C10_empty_phrase_excludes_all :
    ∀ (E : Embedder) (df : List CatalogItem) (p : UserProfile) (g ph me : Vec),
      p.goals ≠ [] → p.physical_issues ≠ [] → p.mental_issues ≠ [] →
      "" ∈ p.physical_issues ++ p.mental_issues →
      E.encode (String.intercalate " " p.goals) = some g →
      E.encode (String.intercalate " " p.physical_issues) = some ph →
      E.encode (String.intercalate " " p.mental_issues) = some me →
      (∀ s : String, strContains s "" = true) ∧
      (∀ row : CatalogItem,
        checkDiscard E (strLower row.Contraindications)
          row.Contraindications_emb
          (p.physical_issues ++ p.mental_issues) ≠ some false) ∧
      recommend_asanas E df p = .ok [] ∧
      get_recommendations E df p = .ok
        { recommended_asanas := [],
          total_recommendations := none,
          message := some "No suitable yoga poses found for your profile. Please try adjusting your goals or issues.",
          status := "success" } := by
  intro E df p g ph me hg0 hp0 hm0 hmem hg hph hme
  have hdisc : ∀ row : CatalogItem,
      checkDiscard E (strLower row.Contraindications)
        row.Contraindications_emb
        (p.physical_issues ++ p.mental_issues) ≠ some false :=
    fun row => checkDiscard_ne_false_of_lex
      ⟨"", hmem, lexMatch_empty (strLower row.Contraindications)⟩
  have h1 : recommend_asanas E df p = .ok [] := by
    rw [recommend_asanas_ok hg0 hp0 hm0 hg hph hme,
      processRows_nil_of_none
        (fun row _ => @keptRec_none_of_discard E ⟨g, ph, me⟩ p row (hdisc row))]
    rfl
  refine ⟨strContains_empty, hdisc, h1, ?_⟩
  unfold get_recommendations
  rw [h1]
  rfl

/-- C10 witness: `nullProfile` carries the empty string among its
physical issues; the whole catalog is excluded. -/
theorem C10_witness :
    (∀ s : String, strContains s "" = true) ∧
    (∀ row : CatalogItem,
      checkDiscard specEmbedder (strLower row.Contraindications)
        row.Contraindications_emb
        (nullProfile.physical_issues ++ nullProfile.mental_issues) ≠ some false) ∧
    recommend_asanas specEmbedder [specItem, lexItem] nullProfile = .ok [] ∧
    get_recommendations specEmbedder [specItem, lexItem] nullProfile = .ok
      { recommended_asanas := [],
        total_recommendations := none,
        message := some "No suitable yoga poses found for your profile. Please try adjusting your goals or issues.",
        status := "success" } :=
  C10_empty_phrase_excludes_all specEmbedder [specItem, lexItem] nullProfile
    [1, 0] [0, 1] [0, 1] (by decide) (by decide) (by decide) (by decide)
    rfl rfl rfl
